import Mathlib

/-!
Shallow embedding of the dywypi event/command dispatch core
(src/dywypi/plugin.py and src/dywypi/event.py).

Python strings are modelled as `List Char` (code-point sequences), Python
exceptions as an explicit error type, and `asyncio.async` scheduling as
appending a task handle to the returned list.  Object identity for
per-channel plugin data instances is modelled by a fresh-id allocator.
-/

namespace Dywypi

/-- Python strings, indexed by code point. -/
abbrev PyStr := List Char

/-- The Python exceptions the dispatch code can raise. -/
inductive PyError where
  | typeError
  | indexError
  | keyError
  | attributeError
deriving DecidableEq, Repr

/-- The event classes defined in the repository: `object`, `Event`,
`Message`, `CommandMessage` (plugin.py), `_DummyEvent`, `Load` (plugin.py). -/
inductive EventCls where
  | obj
  | event
  | message
  | commandMessage
  | dummyEvent
  | load
deriving DecidableEq, Repr

/-- Python method resolution order of each event class. -/
def mro : EventCls → List EventCls
  | .obj => [.obj]
  | .event => [.event, .obj]
  | .message => [.message, .event, .obj]
  | .commandMessage => [.commandMessage, .message, .event, .obj]
  | .dummyEvent => [.dummyEvent, .obj]
  | .load => [.load, .dummyEvent, .obj]

/-- The classes a listener registration is recorded under: the registered
class's mro, truncated at `Event` (`for cls in event_cls.__mro__: if cls is
Event: break; self.listeners[cls].append(coro)`). -/
def listenChain (c : EventCls) : List EventCls :=
  (mro c).takeWhile (fun x => x ≠ .event)

/-- `issubclass(event_cls, (Event, _DummyEvent))`. -/
def isEventVariant (c : EventCls) : Bool :=
  (mro c).contains .event || (mro c).contains .dummyEvent

/-- `isinstance(event, Message)`: the runtime class has `Message` in its mro. -/
def isMessageInstance (c : EventCls) : Bool :=
  (mro c).contains .message

/-- A scheduled handler invocation (`asyncio.async(listener(event))`),
identified by the owning plugin's name and the handler's identity. -/
structure TaskHandle where
  pluginName : PyStr
  handlerId : Nat
deriving DecidableEq, Repr

/-- `PluginCommand`: a command handler plus its `is_global` flag. -/
structure PluginCommand where
  handlerId : Nat
  is_global : Bool
deriving DecidableEq, Repr

/-- A `Plugin`: name, listener table keyed by event class, command table
keyed by command name.  Handlers are identified by `Nat` ids. -/
structure Plugin where
  name : PyStr
  listeners : EventCls → List Nat
  commands : PyStr → Option PluginCommand

/-- `Plugin.on(event_cls)` applied to a handler: type-check the variant,
then append the handler under every class of `listenChain event_cls`. -/
def Plugin.on (p : Plugin) (event_cls : EventCls) (h : Nat) :
    Except PyError Plugin :=
  if isEventVariant event_cls then
    .ok { p with
          listeners := fun c =>
            if c ∈ listenChain event_cls then p.listeners c ++ [h]
            else p.listeners c }
  else
    .error .typeError

/-- `Plugin.on` with the error case defaulted to the unchanged plugin. -/
def Plugin.onD (p : Plugin) (event_cls : EventCls) (h : Nat) : Plugin :=
  match p.on event_cls h with
  | .ok q => q
  | .error _ => p

/-- `Plugin.command(command_name, is_global=...)`: record the command,
overwriting any previous registration of the same name. -/
def Plugin.registerCommand (p : Plugin) (command_name : PyStr) (h : Nat)
    (is_global : Bool) : Plugin :=
  { p with
    commands := fun n =>
      if n = command_name then some ⟨h, is_global⟩ else p.commands n }

/-- `Plugin.fire`: schedule every listener recorded under the event's exact
runtime class, in table order. -/
def Plugin.fireTasks (p : Plugin) (ty : EventCls) : List TaskHandle :=
  (p.listeners ty).map (fun h => ⟨p.name, h⟩)

/-- `Plugin.fire_command`: look up the command by name; if present, schedule
it when `command.is_global or not is_global`. -/
def Plugin.fireCommandTasks (p : Plugin) (command_name : PyStr)
    (is_global : Bool) : List TaskHandle :=
  match p.commands command_name with
  | none => []
  | some cmd =>
    if cmd.is_global || !is_global then [⟨p.name, cmd.handlerId⟩] else []

/-- The manager's loaded plugins, in dict insertion order. -/
structure PluginManager where
  loaded_plugins : List Plugin

/-- `PluginManager._fire`: broadcast an event to every loaded plugin. -/
def PluginManager.fireBroadcast (m : PluginManager) (ty : EventCls) :
    List TaskHandle :=
  m.loaded_plugins.flatMap (fun p => p.fireTasks ty)

/-- `PluginManager._fire_global_command`: `fire_command(is_global=True)` on
every loaded plugin. -/
def PluginManager.fireGlobalCommand (m : PluginManager)
    (command_name : PyStr) : List TaskHandle :=
  m.loaded_plugins.flatMap (fun p => p.fireCommandTasks command_name true)

/-- `self.loaded_plugins[plugin_name]` as a dict lookup. -/
def PluginManager.findPlugin (m : PluginManager) (n : PyStr) :
    Option Plugin :=
  m.loaded_plugins.find? (fun p => p.name == n)

/-- `PluginManager._fire_plugin_command`: look the plugin up by name,
re-raising the `KeyError` when it is not loaded, else
`fire_command(is_global=False)` on it. -/
def PluginManager.firePluginCommand (m : PluginManager)
    (plugin_name command_name : PyStr) : Except PyError (List TaskHandle) :=
  match m.findPlugin plugin_name with
  | none => .error .keyError
  | some p => .ok (p.fireCommandTasks command_name false)

/-- Python `str.isspace` on the ASCII whitespace characters. -/
def pyIsSpace (c : Char) : Bool :=
  c == ' ' || c == '\t' || c == '\n' || c == '\r' ||
    c == Char.ofNat 11 || c == Char.ofNat 12

/-- Python `s.split(None, 1)`: skip leading whitespace, first word, then the
remainder after the separating whitespace run. -/
def pySplitMax1 (s : PyStr) : List PyStr :=
  let t := s.dropWhile pyIsSpace
  if t.isEmpty then []
  else
    let word := t.takeWhile (fun c => !(pyIsSpace c))
    let rest := (t.dropWhile (fun c => !(pyIsSpace c))).dropWhile pyIsSpace
    if rest.isEmpty then [word] else [word, rest]

/-- Python `s.strip()`. -/
def pyStrip (s : PyStr) : PyStr :=
  ((s.dropWhile pyIsSpace).reverse.dropWhile pyIsSpace).reverse

/-- Lines 209-212: `message.split(None, 1)`, falling back to
`(message.strip(), '')` on `ValueError`. -/
def splitCommandLine (message : PyStr) : PyStr × PyStr :=
  match pySplitMax1 message with
  | [a, b] => (a, b)
  | _ => (pyStrip message, [])

/-- `command_name.rpartition('.')`, returning the pieces the code uses:
`(plugin_name, command_name)`; `plugin_name = ''` when there is no dot. -/
def rpartitionDot (s : PyStr) : PyStr × PyStr :=
  let r := s.reverse
  let afterRev := r.takeWhile (fun c => c ≠ '.')
  if afterRev.length = r.length then ([], s)
  else ((r.drop (afterRev.length + 1)).reverse, afterRev.reverse)

/-- Python truthiness of the `channel` attribute (`None` or a string). -/
def pyTruthy : Option PyStr → Bool
  | none => false
  | some s => !s.isEmpty

/-- Lines 199-200: `event.message.startswith(nick) and
event.message[len(nick)] in ':, '`; the index raises `IndexError` when the
message is exactly the nick. -/
def isCommandCheck (nick msg : PyStr) : Except PyError Bool :=
  if nick.isPrefixOf msg then
    match msg[nick.length]? with
    | some c => .ok (c == ':' || c == ',' || c == ' ')
    | none => .error .indexError
  else
    .ok false

/-- Lines 196-214 of `PluginManager.fire`: classify a `Message`.  Returns
`none` for a regular public message, and `some (plugin_name, command_name,
argstr)` when the message is treated as a command line. -/
def classifyMessage (nick : PyStr) (channel : Option PyStr) (msg : PyStr) :
    Except PyError (Option (PyStr × PyStr × PyStr)) :=
  match isCommandCheck nick msg with
  | .error e => .error e
  | .ok is_command =>
    let is_public := pyTruthy channel
    if is_command || !is_public then
      let message := if is_command then msg.drop (nick.length + 1) else msg
      let (command_name, argstr) := splitCommandLine message
      let (plugin_name, command_name2) := rpartitionDot command_name
      .ok (some (plugin_name, command_name2, argstr))
    else
      .ok none

/-- An event as received by `PluginManager.fire`: its exact runtime class,
and (meaningful when it is a `Message` instance) its `channel` and
`message` attributes derived from the raw payload. -/
structure Ev where
  ty : EventCls
  channel : Option PyStr
  message : PyStr

/-- `PluginManager.fire`: broadcast first, then, for `Message` instances,
classify and route commands.  Returns the scheduled tasks (the
`asyncio.async` side effects, which happen even when a later step raises)
together with the exception propagated to the caller, if any. -/
def PluginManager.fire (m : PluginManager) (nick : PyStr) (ev : Ev) :
    List TaskHandle × Option PyError :=
  let futures := m.fireBroadcast ev.ty
  if isMessageInstance ev.ty then
    match classifyMessage nick ev.channel ev.message with
    | .error e => (futures, some e)
    | .ok none => (futures ++ m.fireBroadcast ev.ty, none)
    | .ok (some (plugin_name, command_name, _argstr)) =>
      if plugin_name.isEmpty then
        (futures ++ m.fireGlobalCommand command_name, none)
      else
        match m.firePluginCommand plugin_name command_name with
        | .error e => (futures, some e)
        | .ok more => (futures ++ more, none)
  else
    (futures, none)

/-- A plugin's `general` dict: key to value (values abstracted as `Nat`). -/
abbrev GMap := PyStr → Option Nat

/-- The manager's `plugin_data` store, keyed by plugin name.  `general`
holds `none` once the attribute has been deleted; `perChannel` maps
(plugin, channel, slot class) to the identity of the allocated instance,
with `nextId` the fresh-identity counter modelling object identity. -/
structure Store where
  nextId : Nat
  perChannel : PyStr → PyStr → Nat → Option Nat
  general : PyStr → Option GMap

/-- The initial store: `defaultdict(PluginData)` gives every plugin an
empty `general` dict and an empty `per_channel` table. -/
def Store.init : Store :=
  { nextId := 0
    perChannel := fun _ _ _ => none
    general := fun _ => some (fun _ => none) }

/-- `PluginDataWrapper.per_channel(cls)`: return the instance stored for
this plugin, channel and class, constructing (allocating a fresh identity)
on first access. -/
def perChannelGet (st : Store) (pl ch : PyStr) (cls : Nat) : Nat × Store :=
  match st.perChannel pl ch cls with
  | some i => (i, st)
  | none =>
    (st.nextId,
     { st with
       nextId := st.nextId + 1
       perChannel := fun pl' ch' cls' =>
         if pl' = pl ∧ ch' = ch ∧ cls' = cls then some st.nextId
         else st.perChannel pl' ch' cls' })

/-- `PluginDataWrapper.__getitem__`: `self._plugin_data.general[key]`;
`AttributeError` when the `general` attribute has been deleted, `KeyError`
when the key is absent. -/
def dataGetItem (st : Store) (pl key : PyStr) : Except PyError Nat :=
  match st.general pl with
  | none => .error .attributeError
  | some g =>
    match g key with
    | some v => .ok v
    | none => .error .keyError

/-- `PluginDataWrapper.__setitem__`: `self._plugin_data.general[key] = value`. -/
def dataSetItem (st : Store) (pl key : PyStr) (v : Nat) :
    Except PyError Store :=
  match st.general pl with
  | none => .error .attributeError
  | some g =>
    .ok { st with
          general := fun pl' =>
            if pl' = pl then some (fun k => if k = key then some v else g k)
            else st.general pl' }

/-- `PluginDataWrapper.__delitem__`: `del self._plugin_data.general` — the
key is ignored and the whole `general` attribute is removed. -/
def dataDelItem (st : Store) (pl _key : PyStr) : Except PyError Store :=
  match st.general pl with
  | none => .error .attributeError
  | some _ =>
    .ok { st with
          general := fun pl' => if pl' = pl then none else st.general pl' }

/-- `dataSetItem` with the error case defaulted to the unchanged store. -/
def setD (st : Store) (pl key : PyStr) (v : Nat) : Store :=
  match dataSetItem st pl key v with
  | .ok s => s
  | .error _ => st

/-- `dataDelItem` with the error case defaulted to the unchanged store. -/
def delD (st : Store) (pl key : PyStr) : Store :=
  match dataDelItem st pl key with
  | .ok s => s
  | .error _ => st

/-- Well-formedness of the allocator: every stored instance identity is
below the counter, and no identity is stored at two different keys. -/
def StoreWF (st : Store) : Prop :=
  (∀ pl ch cls i, st.perChannel pl ch cls = some i → i < st.nextId) ∧
  (∀ pl ch cls pl' ch' cls' i,
     st.perChannel pl ch cls = some i →
     st.perChannel pl' ch' cls' = some i →
     pl = pl' ∧ ch = ch' ∧ cls = cls')

/-- Loaded plugins have pairwise distinct names (`loaded_plugins` is a dict
keyed by name). -/
def uniqueNames (m : PluginManager) : Prop :=
  (m.loaded_plugins.map Plugin.name).Nodup

/-- A plugin with no listeners and no commands. -/
def pluginEmpty : Plugin :=
  ⟨"p".toList, fun _ => [], fun _ => none⟩

/-- A plugin with a single listener (handler 1) on `Message`. -/
def pluginL : Plugin :=
  ⟨"p".toList, fun c => if c = .message then [1] else [], fun _ => none⟩

/-- A manager with `pluginL` loaded. -/
def mgrL : PluginManager := ⟨[pluginL]⟩

/-- A plugin with a local command `loc` and a global command `glob`. -/
def pluginC : Plugin :=
  ⟨"pc".toList, fun _ => [],
   fun n =>
     if n = "loc".toList then some ⟨3, false⟩
     else if n = "glob".toList then some ⟨4, true⟩
     else none⟩

/-- Plugin `echo` with a local-only command `shout`. -/
def pluginEcho : Plugin :=
  ⟨"echo".toList, fun _ => [],
   fun n => if n = "shout".toList then some ⟨7, false⟩ else none⟩

/-- Plugin `other`, also with a command `shout`. -/
def pluginOther : Plugin :=
  ⟨"other".toList, fun _ => [],
   fun n => if n = "shout".toList then some ⟨8, true⟩ else none⟩

/-- A manager with plugins `echo` and `other` loaded. -/
def mgrQ : PluginManager := ⟨[pluginEcho, pluginOther]⟩

/-- Plugin `aa` with a global command `echo`. -/
def pluginA : Plugin :=
  ⟨"aa".toList, fun _ => [],
   fun n => if n = "echo".toList then some ⟨1, true⟩ else none⟩

/-- Plugin `bb` with a global command `echo`. -/
def pluginB : Plugin :=
  ⟨"bb".toList, fun _ => [],
   fun n => if n = "echo".toList then some ⟨2, true⟩ else none⟩

/-- A manager with plugins `aa` and `bb` loaded. -/
def mgrAB : PluginManager := ⟨[pluginA, pluginB]⟩

/-- A manager with only plugin `aa` loaded. -/
def mgrA : PluginManager := ⟨[pluginA]⟩

/-- The delivery is a `Message` that classification leaves as a regular
public message (line 227's `else` branch: public and not addressed). -/
def regularPublicMessage (nick : PyStr) (ev : Ev) : Bool :=
  isMessageInstance ev.ty &&
    (match classifyMessage nick ev.channel ev.message with
     | .ok none => true
     | _ => false)

/-! ## Helper lemmas -/

theorem isPre_self_append (l r : List Char) : l.isPrefixOf (l ++ r) = true := by
  simp

theorem getAt_append (l r : List Char) : (l ++ r)[l.length]? = r[0]? := by
  rw [List.getElem?_append_right (Nat.le_refl _)]
  simp

theorem dropAt_append (l r : List Char) :
    (l ++ r).drop (l.length + 1) = r.drop 1 :=
  List.drop_append 1

theorem chain_antisym :
    ∀ S V : EventCls, S ∈ listenChain V → S ≠ V → V ∉ listenChain S := by
  intro S V
  cases S <;> cases V <;> decide

/-! ## Claim theorems -/

/-- C1 (counterexample): on the code, a handler registered on the supertype
`Message` is NOT scheduled when an event of exact runtime variant
`CommandMessage` is fired, while a handler registered on the subtype
`CommandMessage` IS scheduled when an event of exact runtime variant
`Message` is fired — both directions of the claimed ancestor propagation
law fail at these concrete inputs. -/
theorem c1_counterexample :
    pluginEmpty.on EventCls.message 1 = .ok (pluginEmpty.onD EventCls.message 1) ∧
    (pluginEmpty.onD EventCls.message 1).fireTasks EventCls.commandMessage = [] ∧
    (pluginEmpty.onD EventCls.commandMessage 2).fireTasks EventCls.message =
      [⟨"p".toList, 2⟩] :=
  ⟨rfl, rfl, rfl⟩

/-- C1 (amended): registration on a variant `V` records the handler under
every class of `V`'s registration chain, and dispatch is by exact runtime
variant; hence a handler registered on a subtype `V` is also scheduled when
an event whose exact runtime variant is a proper supertype `S` of `V` is
fired, while a handler registered on the supertype `S` is never scheduled
when an event of exact runtime variant `V` is fired. -/
theorem c1_amended (p q r : Plugin) (h : Nat) (S V : EventCls)
    (hSV : S ∈ listenChain V) (hne : S ≠ V)
    (hq : p.on V h = .ok q) (hr : p.on S h = .ok r) :
    q.fireTasks S = p.fireTasks S ++ [⟨p.name, h⟩] ∧
    r.fireTasks V = p.fireTasks V := by
  have hVS : V ∉ listenChain S := chain_antisym S V hSV hne
  unfold Plugin.on at hq hr
  split at hq
  · split at hr
    · injection hq with hq
      injection hr with hr
      subst hq
      subst hr
      constructor
      · simp [Plugin.fireTasks, hSV]
      · simp [Plugin.fireTasks, hVS]
    · exact absurd hr (by simp)
  · exact absurd hq (by simp)

/-- C1 (amended, witness): instantiated at `S := Message`,
`V := CommandMessage`, handler 5, on the empty plugin. -/
theorem c1_amended_witness :
    (pluginEmpty.onD EventCls.commandMessage 5).fireTasks EventCls.message =
      pluginEmpty.fireTasks EventCls.message ++ [⟨"p".toList, 5⟩] ∧
    (pluginEmpty.onD EventCls.message 5).fireTasks EventCls.commandMessage =
      pluginEmpty.fireTasks EventCls.commandMessage :=
  c1_amended pluginEmpty _ _ 5 EventCls.message EventCls.commandMessage
    (by decide) (by decide) rfl rfl

/-- C3: command routing is idempotent with respect to addressing — provided
the private text `"echo foo"` does not itself begin with the bot's nickname
plus a separator, the private message `"echo foo"` and the public message
`"<nick>: echo foo"` are both classified as commands and both resolve to
`commandName = "echo"`, `argString = "foo"`. -/
theorem c3_addressing_idempotent (nick ch : PyStr)
    (hpriv : isCommandCheck nick "echo foo".toList = .ok false)
    (_hch : ch ≠ []) :
    classifyMessage nick none "echo foo".toList =
      .ok (some ([], "echo".toList, "foo".toList)) ∧
    classifyMessage nick (some ch) (nick ++ ": echo foo".toList) =
      .ok (some ([], "echo".toList, "foo".toList)) := by
  constructor
  · unfold classifyMessage
    rw [hpriv]
    rfl
  · have hget : (nick ++ ": echo foo".toList)[nick.length]? = some ':' := by
      rw [getAt_append]
      rfl
    have hcc : isCommandCheck nick (nick ++ ": echo foo".toList) = .ok true := by
      unfold isCommandCheck
      rw [isPre_self_append, hget]
      rfl
    have hdrop : (nick ++ ": echo foo".toList).drop (nick.length + 1) =
        " echo foo".toList := by
      rw [dropAt_append]
      rfl
    unfold classifyMessage
    rw [hcc, hdrop]
    rfl

/-- C3 (witness): instantiated at nick `dywypi` and channel `#chan`. -/
theorem c3_witness :
    classifyMessage "dywypi".toList none "echo foo".toList =
      .ok (some ([], "echo".toList, "foo".toList)) ∧
    classifyMessage "dywypi".toList (some "#chan".toList)
        ("dywypi".toList ++ ": echo foo".toList) =
      .ok (some ([], "echo".toList, "foo".toList)) :=
  c3_addressing_idempotent "dywypi".toList "#chan".toList rfl (by decide)

/-- C5: a command registered with `is_global = false` is never scheduled by
a global (broadcast) invocation of `fire_command` but is scheduled by a
plugin-qualified (non-global) invocation; a command with
`is_global = true` is scheduled in both invocation modes. -/
theorem c5_local_global (p : Plugin) (cname : PyStr) (cmd : PluginCommand)
    (hc : p.commands cname = some cmd) :
    p.fireCommandTasks cname true =
      (if cmd.is_global then [⟨p.name, cmd.handlerId⟩] else []) ∧
    p.fireCommandTasks cname false = [⟨p.name, cmd.handlerId⟩] := by
  constructor
  · simp [Plugin.fireCommandTasks, hc]
  · simp [Plugin.fireCommandTasks, hc]

/-- C5 (witness): the local command `loc` of `pluginC` is skipped by the
global invocation mode and scheduled by the qualified one. -/
theorem c5_witness :
    pluginC.fireCommandTasks "loc".toList true = [] ∧
    pluginC.fireCommandTasks "loc".toList false = [⟨"pc".toList, 3⟩] := by
  have h := c5_local_global pluginC "loc".toList ⟨3, false⟩ rfl
  exact ⟨h.1.trans (by rfl), h.2⟩

/-- C8: deleting any single key through the plugin data view removes the
plugin's entire `general` mapping; afterwards reading any key of that
plugin's general data fails (with `AttributeError`), so no binding of any
other key is preserved. -/
theorem c8_delete_removes_mapping (st st' : Store) (pl k : PyStr)
    (hdel : dataDelItem st pl k = .ok st') :
    st'.general pl = none ∧
    ∀ k', dataGetItem st' pl k' = .error PyError.attributeError := by
  unfold dataDelItem at hdel
  split at hdel
  · exact absurd hdel (by simp)
  · injection hdel with hdel
    subst hdel
    refine ⟨by simp, fun k' => ?_⟩
    simp [dataGetItem]

/-- C8 (witness): after binding key `k1` and deleting key `k2`, the whole
mapping is gone and even `k1` can no longer be read. -/
theorem c8_witness :
    (delD (setD Store.init "aa".toList "k1".toList 5) "aa".toList
        "k2".toList).general "aa".toList = none ∧
    dataGetItem
        (delD (setD Store.init "aa".toList "k1".toList 5) "aa".toList
          "k2".toList)
        "aa".toList "k1".toList = .error PyError.attributeError := by
  have h := c8_delete_removes_mapping
    (setD Store.init "aa".toList "k1".toList 5)
    (delD (setD Store.init "aa".toList "k1".toList 5) "aa".toList "k2".toList)
    "aa".toList "k2".toList rfl
  exact ⟨h.1, h.2 "k1".toList⟩

/-- C9: for every `Message` whose text is exactly the bot's nickname, the
addressing check of `PluginManager.fire` indexes one position past the end
of the text and raises `IndexError`, so classification never completes —
although the step-0 broadcast has already been scheduled. -/
theorem c9_nick_only_message (m : PluginManager) (nick : PyStr) (ev : Ev)
    (hmsg : isMessageInstance ev.ty = true) (heq : ev.message = nick) :
    m.fire nick ev = (m.fireBroadcast ev.ty, some PyError.indexError) := by
  subst heq
  have hpre : ev.message.isPrefixOf ev.message = true := by
    have := isPre_self_append ev.message []
    rwa [List.append_nil] at this
  have h1 : isCommandCheck ev.message ev.message = .error .indexError := by
    unfold isCommandCheck
    rw [hpre, List.getElem?_eq_none (Nat.le_refl ev.message.length)]
    rfl
  have h2 : classifyMessage ev.message ev.channel ev.message =
      .error .indexError := by
    unfold classifyMessage
    rw [h1]
  simp only [PluginManager.fire, hmsg, h2]
  rfl

/-- C9 (witness): firing the public message `"n"` with nick `n` on a
manager with one message listener schedules the broadcast task but raises
`IndexError`. -/
theorem c9_witness :
    mgrL.fire "n".toList ⟨EventCls.message, some "#c".toList, "n".toList⟩ =
      (mgrL.fireBroadcast EventCls.message, some PyError.indexError) :=
  c9_nick_only_message mgrL "n".toList
    ⟨EventCls.message, some "#c".toList, "n".toList⟩ rfl rfl

theorem count_map_mk (l : List Nat) (nm n : PyStr) (h : Nat) :
    ((l.map (fun x => (⟨nm, x⟩ : TaskHandle))).count ⟨n, h⟩) =
      if nm = n then l.count h else 0 := by
  induction l with
  | nil => simp
  | cons a t ih =>
    rw [List.map_cons, List.count_cons, ih, List.count_cons]
    by_cases hn : nm = n
    · subst hn
      by_cases ha : a = h
      · subst ha
        simp
      · simp [ha, TaskHandle.mk.injEq]
    · simp [hn, TaskHandle.mk.injEq]

theorem count_broadcast_not_mem (ps : List Plugin) (n : PyStr) (h : Nat)
    (ty : EventCls) (hn : n ∉ ps.map Plugin.name) :
    ((ps.flatMap (fun p => p.fireTasks ty)).count ⟨n, h⟩) = 0 := by
  induction ps with
  | nil => simp
  | cons p t ih =>
    rw [List.flatMap_cons, List.count_append]
    have hpn : p.name ≠ n := fun hEq => hn (by simp [hEq])
    have hnt : n ∉ t.map Plugin.name := fun hm => hn (by simp [hm])
    rw [ih hnt]
    simp only [Plugin.fireTasks]
    rw [count_map_mk, if_neg hpn]

theorem count_broadcast_list (ps : List Plugin) (p : Plugin) (h : Nat)
    (ty : EventCls) (hp : p ∈ ps) (hu : (ps.map Plugin.name).Nodup) :
    ((ps.flatMap (fun q => q.fireTasks ty)).count ⟨p.name, h⟩) =
      (p.listeners ty).count h := by
  induction ps with
  | nil => cases hp
  | cons q t ih =>
    rw [List.flatMap_cons, List.count_append]
    rw [List.map_cons, List.nodup_cons] at hu
    rcases List.mem_cons.mp hp with hpq | hpt
    · subst hpq
      rw [count_broadcast_not_mem t _ _ _ hu.1]
      simp only [Plugin.fireTasks]
      rw [count_map_mk, if_pos rfl, Nat.add_zero]
    · have hq : q.name ≠ p.name := by
        intro hEq
        exact hu.1 (hEq ▸ List.mem_map_of_mem Plugin.name hpt)
      rw [ih hpt hu.2]
      simp only [Plugin.fireTasks]
      rw [count_map_mk, if_neg hq, Nat.zero_add]

theorem count_broadcast (m : PluginManager) (p : Plugin) (h : Nat)
    (ty : EventCls) (hp : p ∈ m.loaded_plugins) (hu : uniqueNames m) :
    ((m.fireBroadcast ty).count ⟨p.name, h⟩) = (p.listeners ty).count h :=
  count_broadcast_list m.loaded_plugins p h ty hp hu

theorem cmdTasks_handler_mem (p : Plugin) (cn : PyStr) (g : Bool)
    (t : TaskHandle) (ht : t ∈ p.fireCommandTasks cn g) :
    ∃ pc, p.commands cn = some pc ∧ t = ⟨p.name, pc.handlerId⟩ := by
  unfold Plugin.fireCommandTasks at ht
  split at ht
  · exact absurd ht (List.not_mem_nil t)
  · rename_i cmd hpc
    split at ht
    · exact ⟨cmd, hpc, List.mem_singleton.mp ht⟩
    · exact absurd ht (List.not_mem_nil t)

theorem count_global_cmd_zero (m : PluginManager) (cn n : PyStr) (h : Nat)
    (hnc : ∀ q ∈ m.loaded_plugins, ∀ c pc, q.commands c = some pc →
      pc.handlerId ≠ h) :
    ((m.fireGlobalCommand cn).count ⟨n, h⟩) = 0 := by
  rw [List.count_eq_zero]
  intro hmem
  unfold PluginManager.fireGlobalCommand at hmem
  rcases List.mem_flatMap.mp hmem with ⟨q, hq, htq⟩
  rcases cmdTasks_handler_mem q cn true _ htq with ⟨pc, hpc, hteq⟩
  exact (hnc q hq cn pc hpc) (congrArg TaskHandle.handlerId hteq).symm

theorem count_plugin_cmd_zero (m : PluginManager) (pn cn n : PyStr) (h : Nat)
    (ts : List TaskHandle)
    (hnc : ∀ q ∈ m.loaded_plugins, ∀ c pc, q.commands c = some pc →
      pc.handlerId ≠ h)
    (hok : m.firePluginCommand pn cn = .ok ts) :
    (ts.count ⟨n, h⟩) = 0 := by
  unfold PluginManager.firePluginCommand at hok
  split at hok
  · exact absurd hok (by simp)
  · rename_i p hfind
    injection hok with hok
    subst hok
    rw [List.count_eq_zero]
    intro hmem
    rcases cmdTasks_handler_mem p cn false _ hmem with ⟨pc, hpc, hteq⟩
    have hq : p ∈ m.loaded_plugins := by
      unfold PluginManager.findPlugin at hfind
      exact List.mem_of_find?_eq_some hfind
    exact (hnc p hq cn pc hpc) (congrArg TaskHandle.handlerId hteq).symm

/-- C2 (counterexample): delivering a public, non-addressed `Message`
through `PluginManager.fire` schedules a registered message listener
TWICE, not exactly once — the plain broadcast of line 193 runs again in
the regular-public-message branch of line 229. -/
theorem c2_counterexample :
    ((mgrL.fire "n".toList
        ⟨EventCls.message, some "#c".toList, "hello".toList⟩).1.count
      ⟨"p".toList, 1⟩) = 2 :=
  rfl

/-- C2 (amended): for a registered (variant, handler) pair of a loaded
plugin (with loaded plugin names unique and the handler not also
registered as any command handler), a delivery through
`PluginManager.fire` schedules the handler once per occurrence in
`listeners[variant]` of the event's exact runtime variant — so exactly
once for an event of exactly that variant and never for an unrelated
variant — except that a public, non-addressed `Message` is broadcast
twice, scheduling the handler exactly twice. -/
theorem c2_amended (m : PluginManager) (nick : PyStr) (ev : Ev)
    (p : Plugin) (h : Nat)
    (hp : p ∈ m.loaded_plugins) (hu : uniqueNames m)
    (hnc : ∀ q ∈ m.loaded_plugins, ∀ c pc, q.commands c = some pc →
      pc.handlerId ≠ h) :
    ((m.fire nick ev).1.count ⟨p.name, h⟩) =
      (if regularPublicMessage nick ev then 2 else 1) *
        (p.listeners ev.ty).count h := by
  have hb : ((m.fireBroadcast ev.ty).count ⟨p.name, h⟩) =
      (p.listeners ev.ty).count h := count_broadcast m p h ev.ty hp hu
  cases hm : isMessageInstance ev.ty with
  | false =>
    have hr : regularPublicMessage nick ev = false := by
      simp [regularPublicMessage, hm]
    simp only [PluginManager.fire, hm, hr, Bool.false_eq_true, if_false,
      if_neg, one_mul]
    exact hb
  | true =>
    cases hcls : classifyMessage nick ev.channel ev.message with
    | error e =>
      have hr : regularPublicMessage nick ev = false := by
        simp [regularPublicMessage, hm, hcls]
      simp only [PluginManager.fire, hm, hcls, hr, if_true, Bool.false_eq_true,
        if_false, one_mul]
      exact hb
    | ok opt =>
      cases opt with
      | none =>
        have hr : regularPublicMessage nick ev = true := by
          simp [regularPublicMessage, hm, hcls]
        simp only [PluginManager.fire, hm, hcls, hr, if_true]
        rw [List.count_append, hb, Nat.two_mul]
      | some trip =>
        obtain ⟨pn, cn, astr⟩ := trip
        have hr : regularPublicMessage nick ev = false := by
          simp [regularPublicMessage, hm, hcls]
        by_cases hpn : pn.isEmpty = true
        · simp only [PluginManager.fire, hm, hcls, hr, hpn, if_true,
            Bool.false_eq_true, if_false, one_mul]
          rw [List.count_append, hb, count_global_cmd_zero m cn _ h hnc,
            Nat.add_zero]
        · simp only [Bool.not_eq_true] at hpn
          cases hfp : m.firePluginCommand pn cn with
          | error e =>
            simp only [PluginManager.fire, hm, hcls, hr, hpn, hfp, if_true,
              Bool.false_eq_true, if_false, one_mul]
            exact hb
          | ok more =>
            simp only [PluginManager.fire, hm, hcls, hr, hpn, hfp, if_true,
              Bool.false_eq_true, if_false, one_mul]
            rw [List.count_append, hb,
              count_plugin_cmd_zero m pn cn _ h more hnc hfp, Nat.add_zero]

/-- C2 (amended, witness): on a manager with one loaded plugin holding one
message listener, a public non-addressed message schedules that listener
exactly twice. -/
theorem c2_amended_witness :
    ((mgrL.fire "n".toList
        ⟨EventCls.message, some "#c".toList, "hello".toList⟩).1.count
      ⟨"p".toList, 1⟩) = 2 *
        (pluginL.listeners EventCls.message).count 1 := by
  have h := c2_amended mgrL "n".toList
    ⟨EventCls.message, some "#c".toList, "hello".toList⟩ pluginL 1
    (List.mem_singleton.mpr rfl)
    (by simp [uniqueNames, mgrL, pluginL])
    (by
      intro q hq c pc hpc
      rw [show mgrL.loaded_plugins = [pluginL] from rfl,
        List.mem_singleton] at hq
      subst hq
      exact absurd hpc (by simp [pluginL]))
  exact h.trans (by rfl)

theorem fire_qualified (m : PluginManager) (nick : PyStr) (ev : Ev)
    (pn cn astr : PyStr)
    (hmsg : isMessageInstance ev.ty = true)
    (hcls : classifyMessage nick ev.channel ev.message =
      .ok (some (pn, cn, astr)))
    (hpn : pn ≠ []) :
    m.fire nick ev =
      (match m.findPlugin pn with
       | some p => (m.fireBroadcast ev.ty ++ p.fireCommandTasks cn false,
           none)
       | none => (m.fireBroadcast ev.ty, some PyError.keyError)) := by
  have hpn' : pn.isEmpty = false := by
    cases pn
    · exact absurd rfl hpn
    · rfl
  simp only [PluginManager.fire, hmsg, hcls, hpn', Bool.false_eq_true,
    if_false, if_true]
  unfold PluginManager.firePluginCommand
  cases hf : m.findPlugin pn with
  | none => rfl
  | some p => rfl

theorem fireCmd_flat_empty (ps : List Plugin) (cn : PyStr)
    (hall : ∀ q ∈ ps, q.commands cn = none) :
    ps.flatMap (fun p => p.fireCommandTasks cn true) = [] := by
  induction ps with
  | nil => rfl
  | cons q t ih =>
    rw [List.flatMap_cons]
    have h1 : q.fireCommandTasks cn true = [] := by
      unfold Plugin.fireCommandTasks
      rw [hall q (List.mem_cons_self q t)]
    rw [h1, List.nil_append,
      ih (fun r hr => hall r (List.mem_cons_of_mem q hr))]

/-- C4 (counterexample): the command word `".echo"` contains a `'.'`, but
because the part before its last dot is empty, the code broadcasts the
command globally — here scheduling the `echo` command handlers of BOTH
loaded plugins `aa` and `bb`, although neither is named by the (empty)
pluginName. -/
theorem c4_counterexample :
    ('.' ∈ (splitCommandLine ".echo hi".toList).1) ∧
    classifyMessage "dywypi".toList none ".echo hi".toList =
      .ok (some ([], "echo".toList, "hi".toList)) ∧
    (mgrAB.fire "dywypi".toList
        ⟨EventCls.message, none, ".echo hi".toList⟩).1 =
      [⟨"aa".toList, 1⟩, ⟨"bb".toList, 2⟩] :=
  ⟨by decide, rfl, rfl⟩

/-- C4 (amended): for every command delivery whose command word has a
NONEMPTY part before its last `'.'`, that part names the target plugin,
the rest is the bare command name, and the delivery schedules — beyond the
step-0 broadcast — only `fire_command` tasks of the plugin with that name,
invoked with `is_global = false` (raising `KeyError` when no such plugin
is loaded); no other loaded plugin's command handler is scheduled. -/
theorem c4_amended (m : PluginManager) (nick : PyStr) (ev : Ev)
    (pn cn astr : PyStr)
    (hmsg : isMessageInstance ev.ty = true)
    (hcls : classifyMessage nick ev.channel ev.message =
      .ok (some (pn, cn, astr)))
    (hpn : pn ≠ []) :
    m.fire nick ev =
      (match m.findPlugin pn with
       | some p => (m.fireBroadcast ev.ty ++ p.fireCommandTasks cn false,
           none)
       | none => (m.fireBroadcast ev.ty, some PyError.keyError)) :=
  fire_qualified m nick ev pn cn astr hmsg hcls hpn

/-- C4 (amended, witness): `"echo.shout hi"` routes only to plugin `echo`,
whose local-only `shout` command is scheduled (non-global invocation);
plugin `other`'s `shout` is not scheduled. -/
theorem c4_amended_witness :
    mgrQ.fire "dywypi".toList
        ⟨EventCls.message, none, "echo.shout hi".toList⟩ =
      (mgrQ.fireBroadcast EventCls.message ++
        pluginEcho.fireCommandTasks "shout".toList false, none) := by
  have h := c4_amended mgrQ "dywypi".toList
    ⟨EventCls.message, none, "echo.shout hi".toList⟩
    "echo".toList "shout".toList "hi".toList rfl rfl (by decide)
  exact h.trans (by rfl)

/-- C6 (counterexample): a plugin-qualified command naming a plugin that is
not loaded (`"ghost.echo hi"` with only `aa` loaded) does NOT fail
silently — the dict lookup's `KeyError` is re-raised to
`PluginManager.fire`'s caller. -/
theorem c6_counterexample :
    (mgrA.fire "dywypi".toList
        ⟨EventCls.message, none, "ghost.echo hi".toList⟩).2 =
      some PyError.keyError :=
  rfl

/-- C6 (amended): a command whose NAME is unknown schedules zero command
handlers and reports no error to the caller, in both the global broadcast
path and the plugin-qualified path; but a plugin-qualified command naming
a plugin that is NOT LOADED raises a `KeyError` to `PluginManager.fire`'s
caller (the step-0 broadcast having already been scheduled). -/
theorem c6_amended :
    (∀ (m : PluginManager) (nick : PyStr) (ev : Ev) (cn astr : PyStr),
       isMessageInstance ev.ty = true →
       classifyMessage nick ev.channel ev.message =
         .ok (some ([], cn, astr)) →
       (∀ q ∈ m.loaded_plugins, q.commands cn = none) →
       m.fire nick ev = (m.fireBroadcast ev.ty, none)) ∧
    (∀ (m : PluginManager) (nick : PyStr) (ev : Ev) (pn cn astr : PyStr)
       (p : Plugin),
       isMessageInstance ev.ty = true →
       classifyMessage nick ev.channel ev.message =
         .ok (some (pn, cn, astr)) →
       pn ≠ [] → m.findPlugin pn = some p → p.commands cn = none →
       m.fire nick ev = (m.fireBroadcast ev.ty, none)) ∧
    (∀ (m : PluginManager) (nick : PyStr) (ev : Ev) (pn cn astr : PyStr),
       isMessageInstance ev.ty = true →
       classifyMessage nick ev.channel ev.message =
         .ok (some (pn, cn, astr)) →
       pn ≠ [] → m.findPlugin pn = none →
       m.fire nick ev =
         (m.fireBroadcast ev.ty, some PyError.keyError)) := by
  refine ⟨?_, ?_, ?_⟩
  · intro m nick ev cn astr hmsg hcls hall
    simp only [PluginManager.fire, hmsg, hcls, List.isEmpty_nil, if_true]
    unfold PluginManager.fireGlobalCommand
    rw [fireCmd_flat_empty m.loaded_plugins cn hall, List.append_nil]
  · intro m nick ev pn cn astr p hmsg hcls hpn hfind hnone
    have h := fire_qualified m nick ev pn cn astr hmsg hcls hpn
    simp only [hfind] at h
    have hempty : p.fireCommandTasks cn false = [] := by
      unfold Plugin.fireCommandTasks
      rw [hnone]
    rw [h, hempty, List.append_nil]
  · intro m nick ev pn cn astr hmsg hcls hpn hfind
    have h := fire_qualified m nick ev pn cn astr hmsg hcls hpn
    simp only [hfind] at h
    exact h

/-- C6 (amended, witness): an unknown global command (`nope`), an unknown
command on a loaded plugin (`echo.none`), and an unloaded plugin
(`ghost.echo`) — the first two are silent, the third raises `KeyError`. -/
theorem c6_amended_witness :
    mgrL.fire "dywypi".toList ⟨EventCls.message, none, "nope hi".toList⟩ =
      (mgrL.fireBroadcast EventCls.message, none) ∧
    mgrQ.fire "dywypi".toList
        ⟨EventCls.message, none, "echo.none hi".toList⟩ =
      (mgrQ.fireBroadcast EventCls.message, none) ∧
    mgrA.fire "dywypi".toList
        ⟨EventCls.message, none, "ghost.echo hi".toList⟩ =
      (mgrA.fireBroadcast EventCls.message, some PyError.keyError) := by
  refine ⟨c6_amended.1 mgrL "dywypi".toList _ "nope".toList "hi".toList
      rfl rfl ?_,
    c6_amended.2.1 mgrQ "dywypi".toList _ "echo".toList "none".toList
      "hi".toList pluginEcho rfl rfl (by decide) rfl rfl,
    c6_amended.2.2 mgrA "dywypi".toList _ "ghost".toList "echo".toList
      "hi".toList rfl rfl (by decide) rfl⟩
  intro q hq
  rw [show mgrL.loaded_plugins = [pluginL] from rfl,
    List.mem_singleton] at hq
  subst hq
  rfl

/-- C10: registering a listener for the root `Event` type itself passes the
variant type check and succeeds, but the registration loop breaks before
recording the handler under any class, so the resulting plugin fires
exactly the same tasks as before for every variant — the handler is never
scheduled. -/
theorem c10_root_event_listener (p : Plugin) (h : Nat) :
    ∃ q, p.on EventCls.event h = .ok q ∧
      ∀ ty, q.fireTasks ty = p.fireTasks ty := by
  refine ⟨_, rfl, fun ty => ?_⟩
  simp [Plugin.on, Plugin.fireTasks, listenChain, mro]

theorem storeWF_init : StoreWF Store.init := by
  constructor
  · intro pl ch cls i h
    exact absurd h (by simp [Store.init])
  · intro pl ch cls pl' ch' cls' i h _
    exact absurd h (by simp [Store.init])

theorem perChannelGet_eq_some (st : Store) (pl ch : PyStr) (cls i : Nat)
    (hx : st.perChannel pl ch cls = some i) :
    perChannelGet st pl ch cls = (i, st) := by
  unfold perChannelGet
  rw [hx]

theorem perChannelGet_eq_none (st : Store) (pl ch : PyStr) (cls : Nat)
    (hx : st.perChannel pl ch cls = none) :
    perChannelGet st pl ch cls =
      (st.nextId,
       ⟨st.nextId + 1,
        fun pl' ch' cls' =>
          if pl' = pl ∧ ch' = ch ∧ cls' = cls then some st.nextId
          else st.perChannel pl' ch' cls',
        st.general⟩) := by
  unfold perChannelGet
  rw [hx]

theorem perChannelGet_lookup (st : Store) (pl ch : PyStr) (cls : Nat) :
    (perChannelGet st pl ch cls).2.perChannel pl ch cls =
      some (perChannelGet st pl ch cls).1 := by
  cases hx : st.perChannel pl ch cls with
  | some i =>
    rw [perChannelGet_eq_some st pl ch cls i hx]
    exact hx
  | none =>
    rw [perChannelGet_eq_none st pl ch cls hx]
    simp

theorem perChannelGet_wf (st : Store) (pl ch : PyStr) (cls : Nat)
    (hwf : StoreWF st) : StoreWF (perChannelGet st pl ch cls).2 := by
  obtain ⟨hbound, hinj⟩ := hwf
  cases hx : st.perChannel pl ch cls with
  | some i =>
    rw [perChannelGet_eq_some st pl ch cls i hx]
    exact ⟨hbound, hinj⟩
  | none =>
    rw [perChannelGet_eq_none st pl ch cls hx]
    constructor
    · intro pl' ch' cls' i h
      dsimp only at h ⊢
      split at h
      · injection h with h
        omega
      · exact Nat.lt_succ_of_lt (hbound _ _ _ _ h)
    · intro pl1 ch1 cls1 pl2 ch2 cls2 i h1 h2
      dsimp only at h1 h2
      split at h1
      · rename_i hc1
        injection h1 with h1
        split at h2
        · rename_i hc2
          obtain ⟨a1, b1, c1⟩ := hc1
          obtain ⟨a2, b2, c2⟩ := hc2
          exact ⟨a1.trans a2.symm, b1.trans b2.symm, c1.trans c2.symm⟩
        · have := hbound _ _ _ _ h2
          omega
      · split at h2
        · rename_i hc2
          injection h2 with h2
          have := hbound _ _ _ _ h1
          omega
        · exact hinj _ _ _ _ _ _ _ h1 h2

theorem perChannelGet_fresh (st : Store) (hwf : StoreWF st)
    (pl ch : PyStr) (cls : Nat) (pl' ch' : PyStr) (cls' : Nat)
    (hkey : ¬(pl = pl' ∧ ch = ch' ∧ cls = cls')) :
    (perChannelGet (perChannelGet st pl ch cls).2 pl' ch' cls').1 ≠
      (perChannelGet st pl ch cls).1 := by
  have hlok : (perChannelGet st pl ch cls).2.perChannel pl ch cls =
      some (perChannelGet st pl ch cls).1 := perChannelGet_lookup st pl ch cls
  have hwf1 : StoreWF (perChannelGet st pl ch cls).2 :=
    perChannelGet_wf st pl ch cls hwf
  cases hx : (perChannelGet st pl ch cls).2.perChannel pl' ch' cls' with
  | some j =>
    rw [perChannelGet_eq_some _ pl' ch' cls' j hx]
    intro hEq
    dsimp only at hEq
    subst hEq
    exact hkey (hwf1.2 pl ch cls pl' ch' cls' _ hlok hx)
  | none =>
    rw [perChannelGet_eq_none _ pl' ch' cls' hx]
    have hlt := hwf1.1 _ _ _ _ hlok
    dsimp only
    omega

/-- C7: per-channel plugin data isolation — starting from any well-formed
store, two accesses to `perChannel` for the same plugin and slot type but
distinct channels yield distinct instances; accesses for distinct plugins
on the same channel yield distinct instances; and writing a plugin's
general mapping leaves every other plugin's general-data reads unchanged,
so plugins share no general-mapping state. -/
theorem c7_data_isolation :
    (∀ (st : Store) (pl ch1 ch2 : PyStr) (cls : Nat),
       StoreWF st → ch1 ≠ ch2 →
       (perChannelGet (perChannelGet st pl ch1 cls).2 pl ch2 cls).1 ≠
         (perChannelGet st pl ch1 cls).1) ∧
    (∀ (st : Store) (pl1 pl2 ch : PyStr) (cls : Nat),
       StoreWF st → pl1 ≠ pl2 →
       (perChannelGet (perChannelGet st pl1 ch cls).2 pl2 ch cls).1 ≠
         (perChannelGet st pl1 ch cls).1) ∧
    (∀ (st st' : Store) (pl1 pl2 k k' : PyStr) (v : Nat),
       pl1 ≠ pl2 →
       dataSetItem st pl1 k v = .ok st' →
       dataGetItem st' pl2 k' = dataGetItem st pl2 k') := by
  refine ⟨?_, ?_, ?_⟩
  · intro st pl ch1 ch2 cls hwf hne
    exact perChannelGet_fresh st hwf pl ch1 cls pl ch2 cls
      (fun hc => hne hc.2.1)
  · intro st pl1 pl2 ch cls hwf hne
    exact perChannelGet_fresh st hwf pl1 ch cls pl2 ch cls
      (fun hc => hne hc.1)
  · intro st st' pl1 pl2 k k' v hne hset
    unfold dataSetItem at hset
    split at hset
    · exact absurd hset (by simp)
    · injection hset with hset
      subst hset
      unfold dataGetItem
      simp only
      rw [if_neg (Ne.symm hne)]

/-- C7 (witness): from the initial store, channels `#1` and `#2` of plugin
`a` receive distinct instances; plugins `a` and `b` on channel `#1`
receive distinct instances; and plugin `a` writing key `k` does not change
plugin `b`'s read of `k`. -/
theorem c7_witness :
    (perChannelGet (perChannelGet Store.init "a".toList "#1".toList 0).2
        "a".toList "#2".toList 0).1 ≠
      (perChannelGet Store.init "a".toList "#1".toList 0).1 ∧
    (perChannelGet (perChannelGet Store.init "a".toList "#1".toList 0).2
        "b".toList "#1".toList 0).1 ≠
      (perChannelGet Store.init "a".toList "#1".toList 0).1 ∧
    dataGetItem (setD Store.init "a".toList "k".toList 9) "b".toList
        "k".toList =
      dataGetItem Store.init "b".toList "k".toList :=
  ⟨c7_data_isolation.1 Store.init "a".toList "#1".toList "#2".toList 0
      storeWF_init (by decide),
   c7_data_isolation.2.1 Store.init "a".toList "b".toList "#1".toList 0
      storeWF_init (by decide),
   c7_data_isolation.2.2 Store.init
      (setD Store.init "a".toList "k".toList 9)
      "a".toList "b".toList "k".toList "k".toList 9 (by decide) rfl⟩

end Dywypi
